import Mathlib

/-!
Verification of the column-classification and record-derivation engine of the
SensEURCity ETL pipeline (`src/senseurcity/data.py`), as a shallow embedding.

Conventions of the embedding:
* a DataFrame's column-name set is a `List String`;
* cell values are modelled by `Cell` (null / string / parsed timestamp) and a
  frame by an ordered association of column names to cell columns;
* timestamps are modelled by `Nat` (the claims only use their ordering; the
  colocation test data is an hourly `date_range`, hour number `n` standing for
  2020-01-01T00:00 plus `n` hours);
* numeric reference readings are modelled by `Int` (only decidable equality of
  readings matters to the claims);
* pandas NaN cells are `Option.none`.
-/

namespace SensEURCity

/-! ### Column classification, `SensEURCityCSV.from_dataframe` (data.py 240-292) -/

/-- `col[:4] == "Ref."` (data.py line 242). -/
def isRefCol (c : String) : Bool := c.take 4 == "Ref."

/-- `col[-5:] == "_flag"` (data.py line 253). -/
def isFlagCol (c : String) : Bool := c.takeRight 5 == "_flag"

/-- Python `col[:-5]`: the flag column name with its last 5 characters removed. -/
def flagBase (c : String) : String := c.dropRight 5

/-- `reference_cols` (data.py 240-247): columns starting with `"Ref."`, minus the
location column, `"Ref.Lat"` and `"Ref.Long"`. -/
def reference_cols (cols : List String) (location_col : String) : List String :=
  (cols.filter isRefCol).filter
    (fun c => !(c == location_col || c == "Ref.Lat" || c == "Ref.Long"))

/-- `flag_cols` (data.py 251-254): columns ending in `"_flag"`. -/
def flag_cols (cols : List String) : List String := cols.filter isFlagCol

/-- `measurement_cols` (data.py 260-262): `{col[:-5] for col in flag_cols if
col[:-5] in csv.columns}`.  The check against `csv.columns` runs before the date
column is moved to the index, so `cols` here is the full original column list. -/
def measurement_cols (cols : List String) : List String :=
  (flag_cols cols).filterMap
    (fun c => if flagBase c ∈ cols then some (flagBase c) else none)

/-- `metadata_cols` (data.py 273-279): every remaining column.  At this point of
`from_dataframe` the date column has become the index, hence the first filter. -/
def metadata_cols (cols : List String) (date_col location_col : String) : List String :=
  (cols.filter (fun c => c != date_col)).filter
    (fun c =>
      !((reference_cols cols location_col).contains c) &&
      !((flag_cols cols).contains c) &&
      !((measurement_cols cols).contains c) &&
      c != location_col)

/-- The only column-name validation `from_dataframe` performs (data.py 216-228):
both designated columns must be present. -/
def acceptedCols (cols : List String) (date_col location_col : String) : Prop :=
  date_col ∈ cols ∧ location_col ∈ cols

/-- Claim C2 as stated: the four role sets are pairwise disjoint, and together
with the date and location columns they cover exactly the original columns. -/
def rolePartition (cols : List String) (date_col location_col : String) : Prop :=
  ((∀ c ∈ reference_cols cols location_col, c ∉ flag_cols cols) ∧
    (∀ c ∈ reference_cols cols location_col, c ∉ measurement_cols cols) ∧
    (∀ c ∈ reference_cols cols location_col, c ∉ metadata_cols cols date_col location_col) ∧
    (∀ c ∈ flag_cols cols, c ∉ measurement_cols cols) ∧
    (∀ c ∈ flag_cols cols, c ∉ metadata_cols cols date_col location_col) ∧
    (∀ c ∈ measurement_cols cols, c ∉ metadata_cols cols date_col location_col)) ∧
  (∀ c ∈ cols,
    c ∈ reference_cols cols location_col ∨ c ∈ flag_cols cols ∨
    c ∈ measurement_cols cols ∨ c ∈ metadata_cols cols date_col location_col ∨
    c = date_col ∨ c = location_col) ∧
  ((∀ c ∈ reference_cols cols location_col, c ∈ cols) ∧
    (∀ c ∈ flag_cols cols, c ∈ cols) ∧
    (∀ c ∈ measurement_cols cols, c ∈ cols) ∧
    (∀ c ∈ metadata_cols cols date_col location_col, c ∈ cols))

/-- Column list exhibiting that a single column can land in both the reference
and the flag role set. -/
def c2Cols : List String := ["date", "Location.ID", "Ref.A_flag"]

/-- A well-behaved column list of the shape the real SensEURCity csv files have. -/
def c2GoodCols : List String :=
  ["date", "Location.ID", "NO2", "NO2_flag", "Ref.NO2", "RH", "Temp"]

/-- Column list for the C3 counterexample. -/
def c3Cols : List String := ["date", "Location.ID", "Ref.NO2"]

end SensEURCity

namespace SensEURCity

/-! ### Frames and the stateful part of `from_dataframe` (data.py 214-292)

`from_dataframe` receives the caller's DataFrame and performs two in-place
column assignments on it (`csv[location_col] = ...` on lines 232-237 and
`csv[date_col] = pd.to_datetime(...)` on line 269) before `csv.set_index`
(line 270) rebinds only the local variable to a fresh re-indexed frame.  The
embedding threads the caller-visible frame state explicitly: the function
returns the caller's frame after the call next to the `Except` result. -/

/-- A DataFrame cell: NaN, a raw string, or a parsed timestamp. -/
inductive Cell where
  | null : Cell
  | str : String → Cell
  | time : Nat → Cell
deriving DecidableEq

/-- A DataFrame: ordered columns, each a name with its cells. -/
structure Frame where
  cols : List (String × List Cell)
deriving DecidableEq

def Frame.names (f : Frame) : List String := f.cols.map Prod.fst

def Frame.getCol (f : Frame) (n : String) : List Cell :=
  ((f.cols.find? (fun p => p.1 == n)).map Prod.snd).getD []

/-- `csv[n] = v` for a column `n` that is already present — the only case
`from_dataframe` exercises, since both target columns are presence-checked
first.  The assignment replaces the column's cells in place. -/
def Frame.setCol (f : Frame) (n : String) (v : List Cell) : Frame :=
  ⟨f.cols.map (fun p => if p.1 == n then (p.1, v) else p)⟩

/-- `.str.strip()` then `.str.replace("/", "_").str.replace("-", "_")`
(data.py 232-237). -/
def normalizeLoc (s : String) : String := ((s.trim).replace "/" "_").replace "-" "_"

/-- The location normalization applied cell-wise; pandas `.str` accessors
propagate NaN. -/
def normalizeCell : Cell → Cell
  | .str s => .str (normalizeLoc s)
  | c => c

/-- `pd.to_datetime(..., format="%Y-%m-%dT%H:%M:%SZ")` applied cell-wise.  The
parser itself is a pandas library routine, abstracted as a parameter `parse`;
NaN parses to NaT. -/
def parseCell (parse : String → Nat) : Cell → Cell
  | .str s => .time (parse s)
  | c => c

/-- The dataclass produced by `from_dataframe` (data.py 154-186): the stored
frame is the separate, re-indexed one (`set_index` result), with the parsed
date column as index. -/
structure SensEURCityCSV where
  name : String
  csvIndex : List Cell
  csv : Frame
  measurement_cols : List String
  metadata_cols : List String
  flag_cols : List String
  reference_cols : List String
  date_col : String
  location_col : String
deriving DecidableEq

/-- The ASCII apostrophe used by the Python error f-strings. -/
def sq : String := String.singleton (Char.ofNat 39)

/-- Error message of data.py 217-220. -/
def dateErrMsg (date_col name : String) : String :=
  sq ++ date_col ++ sq ++ " is not present in " ++ name ++ ".csv" ++
    ". Expected a valid name for the date column."

/-- Error message of data.py 224-227. -/
def locErrMsg (location_col name : String) : String :=
  sq ++ location_col ++ sq ++ " is not present in " ++ name ++ ".csv" ++
    ". Expected a valid name for the location column."

/-- `SensEURCityCSV.from_dataframe` (data.py 187-292) with the caller's frame
threaded explicitly.  Returns the caller-visible frame after the call together
with the validation result. -/
def from_dataframe (parse : String → Nat) (name : String) (csv : Frame)
    (date_col location_col : String) : Frame × Except String SensEURCityCSV :=
  if date_col ∈ csv.names then
    if location_col ∈ csv.names then
      let csv1 := csv.setCol location_col ((csv.getCol location_col).map normalizeCell)
      let refc := reference_cols csv1.names location_col
      let flagc := flag_cols csv1.names
      let measc := measurement_cols csv1.names
      let csv2 := csv1.setCol date_col ((csv1.getCol date_col).map (parseCell parse))
      let metac := metadata_cols csv2.names date_col location_col
      (csv2, Except.ok {
        name := name
        csvIndex := csv2.getCol date_col
        csv := ⟨csv2.cols.filter (fun p => p.1 != date_col)⟩
        measurement_cols := measc
        metadata_cols := metac
        flag_cols := flagc
        reference_cols := refc
        date_col := date_col
        location_col := location_col })
    else (csv, Except.error (locErrMsg location_col name))
  else (csv, Except.error (dateErrMsg date_col name))

/-- `msg` names `sub`: `sub` occurs verbatim inside `msg`. -/
def mentions (msg sub : String) : Prop := ∃ a b, msg = a ++ (sub ++ b)

def exceptOk {ε α : Type _} : Except ε α → Bool
  | Except.ok _ => true
  | Except.error _ => false

/-- Frame of the C8 failing input: the csv of `test_protected_column_name`,
which carries a `point_hash` column next to the standard ones. -/
def c8Frame : Frame :=
  ⟨[("point_hash", [Cell.null]),
    ("Location.ID", [Cell.str "ANT_R801"]),
    ("date", [Cell.str "2020-01-01T00:00:00Z"])]⟩

/-- Frame used by the C9 witness. -/
def c9Frame : Frame :=
  ⟨[("date", [Cell.str "2020-01-01T00:00:00Z"]),
    ("Location.ID", [Cell.str "ANT_R801"])]⟩

/-- Frame used by the C10 witness. -/
def c10Frame : Frame :=
  ⟨[("date", [Cell.str "2020-01-01T00:00:00Z"]),
    ("Location.ID", [Cell.str " ANT/R-801 "]),
    ("NO2", [Cell.null])]⟩

end SensEURCity


namespace SensEURCity

/-! ### `reference_measurements` (data.py 343-375)

The property selects the reference columns plus the location column, drops the
rows whose location is NaN, nulls every reference value that equals the value
of the immediately following (surviving) row in the same column, and yields one
record per remaining row, skipping rows whose measurement dict came out empty.
A row is `t` (the date index), `loc` (the location cell) and `refs` (the cells
of the reference columns, positionally aligned with the column-name list). -/

/-- One row of the reference-column subset `csv.loc[:, (*reference_cols,
location_col)]`. -/
structure RefRow where
  t : Nat
  loc : Option String
  refs : List (Option Int)
deriving DecidableEq

/-- A `MeasurementRecord` (data.py 16-38) as yielded by
`reference_measurements`: `flags` and `meta` are always `None` there, and the
measurements dict keeps insertion order, modelled as a list of pairs. -/
structure MeasurementRecord where
  time : Nat
  device_key : String
  measurements : List (String × Int)
  flags : Option (List (String × String))
  meta : Option (List (String × Int))
deriving DecidableEq

/-- `.dropna(subset=location_col)` (data.py 356-358). -/
def located (rows : List RefRow) : List RefRow := rows.filter (fun r => r.loc.isSome)

/-- The masking `csv_subset[repeated] = np.nan` for one cell, where
`repeated = value.eq(value.shift(-1))` (data.py 359-362): a cell is nulled
exactly when it equals the next row's cell in the same column; pandas `eq`
treats NaN as unequal to everything, including NaN. -/
def suppressPair : Option Int → Option Int → Option Int
  | some a, some b => if a = b then none else some a
  | a, _ => a

/-- Apply the duplicate suppression down the rows: each row's reference cells
are masked against the following row's; the last row is never masked
(`shift(-1)` compares it against NaN). -/
def suppressDups : List RefRow → List RefRow
  | [] => []
  | [r] => [r]
  | r1 :: r2 :: rest =>
    { r1 with refs := r1.refs.zipWith suppressPair r2.refs } :: suppressDups (r2 :: rest)

/-- `record[list(reference_cols)].dropna().to_dict()` (data.py 369): the
surviving (column, value) pairs of one row. -/
def rowMeasurements (refCols : List String) (r : RefRow) : List (String × Int) :=
  (refCols.zip r.refs).filterMap (fun p => p.2.map (fun v => (p.1, v)))

/-- The `reference_measurements` generator (data.py 343-375): one record per
surviving row, with `time`, `device_key` = the row's location value, the
measurements dict, and `None` flags/meta; rows with an empty measurements dict
are skipped (`if not row["measurements"]: continue`). -/
def reference_measurements (refCols : List String) (rows : List RefRow) :
    List MeasurementRecord :=
  (suppressDups (located rows)).filterMap
    (fun r =>
      if (rowMeasurements refCols r).isEmpty then none
      else some { time := r.t, device_key := r.loc.getD "",
                  measurements := rowMeasurements refCols r,
                  flags := none, meta := none })

/-- Default row used with `List.getD` to address rows positionally. -/
def dRow : RefRow := { t := 0, loc := none, refs := [] }

/-- How many value records the pair stream emits for the column named `cname`
out of one (already suppressed) row. -/
def colEmitCount (refCols : List String) (r : RefRow) (cname : String) : Nat :=
  ((rowMeasurements refCols r).filter (fun p => p.1 == cname)).length

/-- Rows for the C5 witness: two consecutive located rows with the same
`Ref.NO2` reading. -/
def c5Rows : List RefRow :=
  [{ t := 0, loc := some "ANT_R801", refs := [some 41] },
   { t := 1, loc := some "ANT_R801", refs := [some 41] }]

/-- Row for the C7 failing input: a single row with a non-null location and a
NaN reading in the only reference column. -/
def c7Rows : List RefRow := [{ t := 0, loc := some "ANT_R801", refs := [none] }]

/-! ### `reference_headers` (data.py 458-498) -/

/-- Does the word `pat` lead the word `w`?  (Literal prefix test, spelled out
over the character lists so that it evaluates by kernel reduction.) -/
def leadsWith : List Char → List Char → Bool
  | [], _ => true
  | _ :: _, [] => false
  | a :: as, b :: bs => if a = b then leadsWith as bs else false

/-- Python's single-character `str.replace`, character-wise. -/
def replaceChar (pat rep : Char) (s : String) : String :=
  String.mk (s.data.map (fun c => if c = pat then rep else c))

/-- `re.match(r"Ref\.(?:(?:NO)|(?:CO)|(?:O)|(?:PM))", header)` (data.py 469):
an anchored alternation of literals, i.e. a prefix test for the four pollutant
families. -/
def pollutantMatch (h : String) : Bool :=
  leadsWith "Ref.NO".data h.data || leadsWith "Ref.CO".data h.data ||
    leadsWith "Ref.O".data h.data || leadsWith "Ref.PM".data h.data

/-- The fixed city lookup table (data.py 470-476); the non-standard Antwerp
site prefix `VIT` folds to `ANT`.  A prefix outside the table raises `KeyError`,
modelled as `none`. -/
def city_match (s : String) : Option String :=
  if s = "ANT" then some "ANT"
  else if s = "VIT" then some "ANT"
  else if s = "OSL" then some "OSL"
  else if s = "ZAG" then some "ZAG"
  else if s = "ISP" then some "ISP"
  else none

/-- The dot character. -/
def dotChar : Char := Char.ofNat 46

/-- The underscore character. -/
def usChar : Char := Char.ofNat 95

/-- The emitted header name for one reference header under one location
(data.py 488-493): `header.replace(".", "_")` — a single-character pattern,
hence character-wise — plus `_<city code>` from `city_match[loc[:3]]` for
pollutant headers; all other headers only get the dot normalization. -/
def reference_header (loc header : String) : Option String :=
  if pollutantMatch header then
    (city_match (loc.take 3)).map (fun city => (replaceChar dotChar usChar header) ++ "_" ++ city)
  else some (replaceChar dotChar usChar header)

/-! ### `colocation` (data.py 377-429)

The property takes the location column with the date index, fills NaN with
`""`, marks break points where the location differs from the previous row,
forward-fills the break-point ordinal as a group id, drops blank rows, groups
by (location, group) — pandas sorts group keys ascending — aggregates
min/max of the date per group, and finally sorts the records by `start_date`. -/

/-- One location-column row after `reset_index` and group assignment:
timestamp, filled location, group id. -/
structure CRow where
  t : Nat
  loc : String
  gid : Nat
deriving DecidableEq

/-- Group assignment for the rows after the first one: a row whose location
equals the previous row's location keeps the running group ordinal, otherwise
it is a break point and starts the next group (data.py 396-406). -/
def groupsAux (prev : String) (g : Nat) : List (Nat × String) → List CRow
  | [] => []
  | (t, l) :: rest =>
    if l = prev then ⟨t, l, g⟩ :: groupsAux l g rest
    else ⟨t, l, g + 1⟩ :: groupsAux l (g + 1) rest

/-- Full group assignment: the first row is always a break point and receives
group ordinal 0 (the forward-fill then never sees a leading NaN). -/
def assignGroups : List (Nat × String) → List CRow
  | [] => []
  | (t, l) :: rest => ⟨t, l, 0⟩ :: groupsAux l 0 rest

/-- `.fillna("")` on the location column (data.py 393). -/
def fillLoc (rows : List (Nat × Option String)) : List (Nat × String) :=
  rows.map (fun r => (r.1, r.2.getD ""))

/-- `csv_subset[csv_subset[location_col] != ""]` (data.py 409). -/
def nonBlank (rs : List CRow) : List CRow := rs.filter (fun r => r.loc != "")

/-- The distinct (location, group) keys of the groupby, in first-occurrence
order (they are sorted afterwards). -/
def gatherKeys : List CRow → List (String × Nat) → List (String × Nat)
  | [], acc => acc
  | r :: rs, acc =>
    if (r.loc, r.gid) ∈ acc then gatherKeys rs acc
    else gatherKeys rs (acc ++ [(r.loc, r.gid)])

/-- Python's `<` on strings: lexicographic comparison of code points. -/
def charListLt : List Char → List Char → Bool
  | [], [] => false
  | [], _ :: _ => true
  | _ :: _, [] => false
  | a :: as, b :: bs =>
    if a.toNat < b.toNat then true
    else if b.toNat < a.toNat then false
    else charListLt as bs

/-- pandas sorts groupby keys ascending, location first then group id. -/
def keyLe (a b : String × Nat) : Prop :=
  charListLt a.1.data b.1.data = true ∨ (a.1 = b.1 ∧ a.2 ≤ b.2)

instance keyLeDecidable : DecidableRel keyLe := by
  unfold keyLe
  infer_instance

/-- The timestamps of the rows belonging to one (location, group) key. -/
def tsOfKey (rs : List CRow) (k : String × Nat) : List Nat :=
  rs.filterMap (fun r => if r.loc = k.1 ∧ r.gid = k.2 then some r.t else none)

/-- `aggfunc="min"` over a group's timestamps (groups are always nonempty). -/
def minD : List Nat → Nat
  | [] => 0
  | x :: xs => xs.foldl min x

/-- `aggfunc="max"` over a group's timestamps (groups are always nonempty). -/
def maxD : List Nat → Nat
  | [] => 0
  | x :: xs => xs.foldl max x

/-- A `ColocationRecord` (data.py 41-60). -/
structure ColocationRecord where
  device_key : String
  other_key : String
  start_date : Nat
  end_date : Nat
deriving DecidableEq

/-- `.sort_values("start_date")` ordering (data.py 423). -/
def recLe (a b : ColocationRecord) : Prop := a.start_date ≤ b.start_date

instance recLeDecidable : DecidableRel recLe := fun a b => Nat.decLe _ _

instance recLeTotal : IsTotal ColocationRecord recLe := ⟨fun a b => Nat.le_total _ _⟩

instance recLeTrans : IsTrans ColocationRecord recLe := ⟨fun _ _ _ => Nat.le_trans⟩

/-- Two colocation intervals do not overlap (both bounds are inclusive,
data.py 50-54). -/
def NonOverlap (a b : ColocationRecord) : Prop :=
  a.end_date < b.start_date ∨ b.end_date < a.start_date

/-- Relation carried along the group-assigned rows: group ids never decrease,
timestamps strictly increase (for strictly increasing input), and equal group
ids force equal locations. -/
def RowR (a b : CRow) : Prop :=
  a.gid ≤ b.gid ∧ a.t < b.t ∧ (a.gid = b.gid → a.loc = b.loc)

/-- The groupby keys, ascending (pandas `groupby` sorts its keys). -/
def coKeys (rs : List CRow) : List (String × Nat) :=
  List.insertionSort keyLe (gatherKeys rs [])

/-- One aggregated colocation record for one (location, group) key
(data.py 412-425): min/max timestamp of the group, the key's location as
`other_key`, the device name as `device_key`. -/
def mkRec (name : String) (rs : List CRow) (k : String × Nat) : ColocationRecord :=
  { device_key := name, other_key := k.1,
    start_date := minD (tsOfKey rs k), end_date := maxD (tsOfKey rs k) }

/-- The `colocation` generator (data.py 377-429) over the classified table's
(date, location) rows: fill blanks, assign groups, drop blanks, aggregate
min/max timestamps per (location, group) key, attach the device name, sort by
start date. -/
def colocation (name : String) (rows : List (Nat × Option String)) :
    List ColocationRecord :=
  List.insertionSort recLe
    ((coKeys (nonBlank (assignGroups (fillLoc rows)))).map
      (mkRec name (nonBlank (assignGroups (fillLoc rows)))))

/-- Default annotated row for positional access. -/
def dCRow : CRow := { t := 0, loc := "", gid := 0 }

/-- Pair each location with its hourly row number, matching the
`pd.date_range(..., freq="1h")` index of the test fixture. -/
def attachTimes (locs : List (Option String)) : List (Nat × Option String) :=
  (List.range locs.length).zip locs

/-- The location sequence of the C1 fixture (tests/test_data.py 29-37). -/
def c1Locs : List (Option String) :=
  List.replicate 300 (some "A") ++ List.replicate 98 none ++
    List.replicate 200 (some "B") ++ List.replicate 100 (some "A") ++
    List.replicate 300 none ++ [some "A", none] ++ List.replicate 100 (some "C")

/-- The C1 input table: hourly timestamps starting at hour 0. -/
def c1Rows : List (Nat × Option String) := attachTimes c1Locs

/-- Default row for positional access into colocation inputs. -/
def cRowD : Nat × Option String := (0, none)

/-- Rows for the C4 witness: A, blank, A over three consecutive hours. -/
def c4Rows : List (Nat × Option String) :=
  [(0, some "A"), (1, none), (2, some "A")]

end SensEURCity

-- (theorem insertion marker: definitions above, theorems below)

namespace SensEURCity

theorem mem_reference_cols {cols : List String} {location_col c : String} :
    c ∈ reference_cols cols location_col ↔
      c ∈ cols ∧ isRefCol c = true ∧ c ≠ location_col ∧ c ≠ "Ref.Lat" ∧ c ≠ "Ref.Long" := by
  rw [reference_cols, List.mem_filter, List.mem_filter]
  simp only [Bool.not_eq_true', Bool.or_eq_false_iff, beq_eq_false_iff_ne, ne_eq]
  constructor
  · rintro ⟨⟨hc, hr⟩, ⟨h1, h2⟩, h3⟩
    exact ⟨hc, hr, h1, h2, h3⟩
  · rintro ⟨hc, hr, h1, h2, h3⟩
    exact ⟨⟨hc, hr⟩, ⟨h1, h2⟩, h3⟩

theorem mem_flag_cols {cols : List String} {c : String} :
    c ∈ flag_cols cols ↔ c ∈ cols ∧ isFlagCol c = true := by
  simp [flag_cols, List.mem_filter]

theorem mem_measurement_cols {cols : List String} {c : String} :
    c ∈ measurement_cols cols ↔
      ∃ f ∈ flag_cols cols, flagBase f ∈ cols ∧ flagBase f = c := by
  simp only [measurement_cols, List.mem_filterMap]
  constructor
  · rintro ⟨f, hf, hif⟩
    by_cases hb : flagBase f ∈ cols
    · simp only [hb, if_pos] at hif
      exact ⟨f, hf, hb, Option.some.inj hif⟩
    · simp [hb] at hif
  · rintro ⟨f, hf, hb, hc⟩
    exact ⟨f, hf, by rw [if_pos hb, hc]⟩

theorem mem_metadata_cols {cols : List String} {date_col location_col c : String} :
    c ∈ metadata_cols cols date_col location_col ↔
      c ∈ cols ∧ c ≠ date_col ∧ c ∉ reference_cols cols location_col ∧
        c ∉ flag_cols cols ∧ c ∉ measurement_cols cols ∧ c ≠ location_col := by
  rw [metadata_cols, List.mem_filter, List.mem_filter]
  simp only [List.contains, List.elem_eq_mem, Bool.and_eq_true, Bool.not_eq_true',
    decide_eq_false_iff_not, bne_iff_ne, ne_eq]
  constructor
  · rintro ⟨⟨hc, hd⟩, ⟨⟨⟨h1, h2⟩, h3⟩, h4⟩⟩
    exact ⟨hc, hd, h1, h2, h3, h4⟩
  · rintro ⟨hc, hd, h1, h2, h3, h4⟩
    exact ⟨⟨hc, hd⟩, ⟨⟨⟨h1, h2⟩, h3⟩, h4⟩⟩

instance rolePartitionDecidable (cols : List String) (date_col location_col : String) :
    Decidable (rolePartition cols date_col location_col) := by
  unfold rolePartition
  infer_instance

instance acceptedColsDecidable (cols : List String) (date_col location_col : String) :
    Decidable (acceptedCols cols date_col location_col) := by
  unfold acceptedCols
  infer_instance

/-- C2, counterexample: the column list `["date", "Location.ID", "Ref.A_flag"]` is
accepted by `from_dataframe` (both designated columns are present), yet the role
sets are not pairwise disjoint: `"Ref.A_flag"` lands in both `reference_cols`
and `flag_cols`, so the claimed partition property is false. -/
theorem C2_rolePartition_counterexample :
    acceptedCols c2Cols "date" "Location.ID" ∧
      decide (rolePartition c2Cols "date" "Location.ID") = false := by
  constructor
  · decide
  · decide

/-- C2, amended: for every accepted column list in which no column name both
starts with `"Ref."` and ends with `"_flag"`, and no flag column's stripped base
name itself starts with `"Ref."` or ends with `"_flag"`, the four derived role
sets are pairwise disjoint and, together with the date column and the location
column, cover exactly the original column names. -/
theorem C2_rolePartition_amended (cols : List String) (date_col location_col : String)
    (hd : date_col ∈ cols) (hl : location_col ∈ cols)
    (h1 : ∀ c ∈ cols, isRefCol c = true → isFlagCol c = false)
    (h2 : ∀ c ∈ cols, isFlagCol c = true → flagBase c ∈ cols →
      isRefCol (flagBase c) = false ∧ isFlagCol (flagBase c) = false) :
    rolePartition cols date_col location_col := by
  have hrf : ∀ c, c ∈ reference_cols cols location_col → c ∉ flag_cols cols := by
    intro c hR hF
    obtain ⟨hc, hr, -⟩ := mem_reference_cols.mp hR
    obtain ⟨-, hf⟩ := mem_flag_cols.mp hF
    rw [h1 c hc hr] at hf
    exact Bool.false_ne_true hf
  have hrm : ∀ c, c ∈ reference_cols cols location_col → c ∉ measurement_cols cols := by
    intro c hR hM
    obtain ⟨-, hr, -⟩ := mem_reference_cols.mp hR
    obtain ⟨f, hf, hb, hbc⟩ := mem_measurement_cols.mp hM
    obtain ⟨hfc, hff⟩ := mem_flag_cols.mp hf
    have := (h2 f hfc hff hb).1
    rw [hbc, hr] at this
    exact absurd this (by simp)
  have hfm : ∀ c, c ∈ flag_cols cols → c ∉ measurement_cols cols := by
    intro c hF hM
    obtain ⟨-, hfl⟩ := mem_flag_cols.mp hF
    obtain ⟨f, hf, hb, hbc⟩ := mem_measurement_cols.mp hM
    obtain ⟨hfc, hff⟩ := mem_flag_cols.mp hf
    have := (h2 f hfc hff hb).2
    rw [hbc, hfl] at this
    exact absurd this (by simp)
  refine ⟨⟨fun c hc => hrf c hc, fun c hc => hrm c hc,
      fun c hc hx => ((mem_metadata_cols.mp hx).2.2.1 hc),
      fun c hc => hfm c hc,
      fun c hc hx => ((mem_metadata_cols.mp hx).2.2.2.1 hc),
      fun c hc hx => ((mem_metadata_cols.mp hx).2.2.2.2.1 hc)⟩, ?_, ?_, ?_, ?_, ?_⟩
  · intro c hc
    by_cases hdc : c = date_col
    · exact Or.inr (Or.inr (Or.inr (Or.inr (Or.inl hdc))))
    by_cases hlc : c = location_col
    · exact Or.inr (Or.inr (Or.inr (Or.inr (Or.inr hlc))))
    by_cases hR : c ∈ reference_cols cols location_col
    · exact Or.inl hR
    by_cases hF : c ∈ flag_cols cols
    · exact Or.inr (Or.inl hF)
    by_cases hM : c ∈ measurement_cols cols
    · exact Or.inr (Or.inr (Or.inl hM))
    exact Or.inr (Or.inr (Or.inr (Or.inl
      (mem_metadata_cols.mpr ⟨hc, hdc, hR, hF, hM, hlc⟩))))
  · exact fun c hc => (mem_reference_cols.mp hc).1
  · exact fun c hc => (mem_flag_cols.mp hc).1
  · intro c hc
    obtain ⟨f, -, hb, hbc⟩ := mem_measurement_cols.mp hc
    exact hbc ▸ hb
  · exact fun c hc => (mem_metadata_cols.mp hc).1

/-- C2, witness for the amended theorem: a realistic SensEURCity column list
satisfies the side conditions and hence the partition property. -/
theorem C2_rolePartition_witness :
    ("date" ∈ c2GoodCols ∧ "Location.ID" ∈ c2GoodCols ∧
      (∀ c ∈ c2GoodCols, isRefCol c = true → isFlagCol c = false) ∧
      (∀ c ∈ c2GoodCols, isFlagCol c = true → flagBase c ∈ c2GoodCols →
        isRefCol (flagBase c) = false ∧ isFlagCol (flagBase c) = false)) ∧
    rolePartition c2GoodCols "date" "Location.ID" :=
  ⟨⟨by decide, by decide, by decide, by decide⟩,
    C2_rolePartition_amended c2GoodCols "date" "Location.ID"
      (by decide) (by decide) (by decide) (by decide)⟩


/-- C3, counterexample: on the accepted column list
`["date", "Location.ID", "Ref.NO2"]` with the default location column,
`reference_cols` does not contain the location column, refuting the claim that
the location column is always a member of the reference set. -/
theorem C3_location_in_reference_counterexample :
    acceptedCols c3Cols "date" "Location.ID" ∧
      decide ("Location.ID" ∈ reference_cols c3Cols "Location.ID") = false := by
  constructor
  · decide
  · decide

/-- C3, amended: `reference_cols` NEVER contains the designated location column;
`from_dataframe` subtracts it explicitly (data.py 243-247), together with
`"Ref.Lat"` and `"Ref.Long"`. -/
theorem C3_location_never_in_reference (cols : List String) (location_col : String) :
    decide (location_col ∈ reference_cols cols location_col) = false := by
  rw [decide_eq_false_iff_not]
  intro h
  exact (mem_reference_cols.mp h).2.2.1 rfl

end SensEURCity

namespace SensEURCity

theorem Frame.names_setCol (f : Frame) (n : String) (v : List Cell) :
    (f.setCol n v).names = f.names := by
  unfold Frame.setCol Frame.names
  rw [List.map_map]
  apply List.map_congr_left
  intro p hp
  show (if p.1 == n then (p.1, v) else p).1 = p.1
  split
  · rfl
  · rfl

theorem find?_update_self : ∀ (ps : List (String × List Cell)) (n : String) (v : List Cell),
    n ∈ ps.map Prod.fst →
    (ps.map (fun p => if p.1 == n then (p.1, v) else p)).find? (fun p => p.1 == n) = some (n, v)
  | [], n, v, h => by simp at h
  | p :: ps, n, v, h => by
    rw [List.map_cons]
    by_cases hp : p.1 == n
    · rw [List.find?_cons_of_pos _ (by rw [if_pos hp]; exact hp)]
      rw [if_pos hp]
      rw [beq_iff_eq.mp hp]
    · have hn : n ∈ ps.map Prod.fst := by
        rw [List.map_cons, List.mem_cons] at h
        rcases h with h1 | h1
        · exact absurd (beq_iff_eq.mpr h1.symm) hp
        · exact h1
      rw [List.find?_cons_of_neg _ (by rw [if_neg hp]; exact hp)]
      exact find?_update_self ps n v hn

theorem find?_update_ne : ∀ (ps : List (String × List Cell)) (n m : String) (v : List Cell),
    m ≠ n →
    (ps.map (fun p => if p.1 == n then (p.1, v) else p)).find? (fun p => p.1 == m) =
      ps.find? (fun p => p.1 == m)
  | [], n, m, v, h => by simp
  | p :: ps, n, m, v, h => by
    rw [List.map_cons]
    by_cases hp : p.1 == n
    · have hm : ¬((fun q : String × List Cell => q.1 == m) p = true) := by
        show ¬(p.1 == m) = true
        rw [beq_iff_eq]
        intro hpm
        exact h (hpm ▸ (beq_iff_eq.mp hp))
      have hm2 : ¬((fun q : String × List Cell => q.1 == m) (if p.1 == n then (p.1, v) else p) = true) := by
        rw [if_pos hp]
        exact hm
      rw [List.find?_cons_of_neg ((ps.map (fun p => if p.1 == n then (p.1, v) else p))) hm2]
      rw [List.find?_cons_of_neg ps hm]
      exact find?_update_ne ps n m v h
    · by_cases hm : (fun q : String × List Cell => q.1 == m) p = true
      · have hm2 : (fun q : String × List Cell => q.1 == m) (if p.1 == n then (p.1, v) else p) = true := by
          rw [if_neg hp]
          exact hm
        rw [List.find?_cons_of_pos ((ps.map (fun p => if p.1 == n then (p.1, v) else p))) hm2]
        rw [List.find?_cons_of_pos ps hm]
        rw [if_neg hp]
      · have hm2 : ¬((fun q : String × List Cell => q.1 == m) (if p.1 == n then (p.1, v) else p) = true) := by
          rw [if_neg hp]
          exact hm
        rw [List.find?_cons_of_neg ((ps.map (fun p => if p.1 == n then (p.1, v) else p))) hm2]
        rw [List.find?_cons_of_neg ps hm]
        exact find?_update_ne ps n m v h

theorem Frame.getCol_setCol_self (f : Frame) (n : String) (v : List Cell)
    (h : n ∈ f.names) : (f.setCol n v).getCol n = v := by
  unfold Frame.names at h
  unfold Frame.setCol Frame.getCol
  rw [find?_update_self f.cols n v h]
  rfl

theorem Frame.getCol_setCol_ne (f : Frame) (n m : String) (v : List Cell)
    (h : m ≠ n) : (f.setCol n v).getCol m = f.getCol m := by
  unfold Frame.setCol Frame.getCol
  rw [find?_update_ne f.cols n m v h]

theorem map_fst_filter_ne (ps : List (String × List Cell)) (d : String) :
    (ps.filter (fun p => p.1 != d)).map Prod.fst =
      (ps.map Prod.fst).filter (fun c => c != d) := by
  induction ps with
  | nil => rfl
  | cons p ps ih =>
    by_cases h : (p.1 != d) = true
    · rw [List.filter_cons, if_pos h, List.map_cons, List.map_cons,
        List.filter_cons, if_pos h, ih]
    · rw [List.filter_cons, if_neg h, List.map_cons,
        List.filter_cons, if_neg h, ih]

/-- C9: a date column name absent from the table makes `from_dataframe` raise a
`ValueError` whose message names the missing column and the file, leaving the
caller's frame untouched; the same for an absent location column name (the date
column is validated first, data.py 216-228). -/
theorem C9_missing_column_errors (parse : String → Nat) (name : String) (csv : Frame)
    (date_col location_col : String) :
    (date_col ∉ csv.names →
      from_dataframe parse name csv date_col location_col =
        (csv, Except.error (dateErrMsg date_col name)) ∧
      mentions (dateErrMsg date_col name) date_col ∧
      mentions (dateErrMsg date_col name) (name ++ ".csv")) ∧
    (date_col ∈ csv.names → location_col ∉ csv.names →
      from_dataframe parse name csv date_col location_col =
        (csv, Except.error (locErrMsg location_col name)) ∧
      mentions (locErrMsg location_col name) location_col ∧
      mentions (locErrMsg location_col name) (name ++ ".csv")) := by
  constructor
  · intro hd
    refine ⟨?_, ?_, ?_⟩
    · unfold from_dataframe
      rw [if_neg hd]
    · refine ⟨sq, sq ++ " is not present in " ++ name ++ ".csv" ++
        ". Expected a valid name for the date column.", ?_⟩
      simp only [dateErrMsg, String.append_assoc]
    · refine ⟨sq ++ date_col ++ sq ++ " is not present in ",
        ". Expected a valid name for the date column.", ?_⟩
      simp only [dateErrMsg, String.append_assoc]
  · intro hd hl
    refine ⟨?_, ?_, ?_⟩
    · unfold from_dataframe
      rw [if_pos hd, if_neg hl]
    · refine ⟨sq, sq ++ " is not present in " ++ name ++ ".csv" ++
        ". Expected a valid name for the location column.", ?_⟩
      simp only [locErrMsg, String.append_assoc]
    · refine ⟨sq ++ location_col ++ sq ++ " is not present in ",
        ". Expected a valid name for the location column.", ?_⟩
      simp only [locErrMsg, String.append_assoc]

/-- C9, witness: with column list `["date", "Location.ID"]`, asking for date
column `"BAD"` (resp. location column `"BAD"`) produces the error naming
`"BAD"` and `Antwerp_402B00.csv`. -/
theorem C9_missing_column_errors_witness :
    ("BAD" ∉ c9Frame.names ∧
      (from_dataframe (fun _ => 0) "Antwerp_402B00" c9Frame "BAD" "Location.ID" =
        (c9Frame, Except.error (dateErrMsg "BAD" "Antwerp_402B00")) ∧
      mentions (dateErrMsg "BAD" "Antwerp_402B00") "BAD" ∧
      mentions (dateErrMsg "BAD" "Antwerp_402B00") ("Antwerp_402B00" ++ ".csv"))) ∧
    ("date" ∈ c9Frame.names ∧ "BAD" ∉ c9Frame.names ∧
      (from_dataframe (fun _ => 0) "Antwerp_402B00" c9Frame "date" "BAD" =
        (c9Frame, Except.error (locErrMsg "BAD" "Antwerp_402B00")) ∧
      mentions (locErrMsg "BAD" "Antwerp_402B00") "BAD" ∧
      mentions (locErrMsg "BAD" "Antwerp_402B00") ("Antwerp_402B00" ++ ".csv"))) :=
  ⟨⟨by decide,
      (C9_missing_column_errors (fun _ => 0) "Antwerp_402B00" c9Frame "BAD" "Location.ID").1
        (by decide)⟩,
    ⟨by decide, by decide,
      (C9_missing_column_errors (fun _ => 0) "Antwerp_402B00" c9Frame "date" "BAD").2
        (by decide) (by decide)⟩⟩

/-- C8: the claim (and `test_protected_column_name`) requires a `ValueError`
when `date_col` or `location_col` is one of the reserved identity-key names
`point_hash` / `ref_point_hash`; but `from_dataframe` performs no such check
(data.py 214-230 validates presence only), so both calls succeed.  This is the
code diverging from its own test suite. -/
theorem C8_no_reserved_name_check :
    exceptOk (from_dataframe (fun _ => 0) "Antwerp_402B00" c8Frame
      "point_hash" "Location.ID").2 = true ∧
    exceptOk (from_dataframe (fun _ => 0) "Antwerp_402B00" c8Frame
      "date" "point_hash").2 = true := by
  constructor
  · decide
  · decide

/-- C10: a successful `from_dataframe` call mutates the caller's DataFrame in
place: afterwards its location column holds the normalized values, its date
column holds the parsed timestamps, its column set is unchanged — while the
returned instance stores a separate frame whose columns omit the date column
(it became the index). -/
theorem C10_caller_frame_mutated (parse : String → Nat) (name : String) (csv : Frame)
    (date_col location_col : String)
    (hd : date_col ∈ csv.names) (hl : location_col ∈ csv.names)
    (hne : date_col ≠ location_col) :
    (from_dataframe parse name csv date_col location_col).1.names = csv.names ∧
    (from_dataframe parse name csv date_col location_col).1.getCol location_col =
      (csv.getCol location_col).map normalizeCell ∧
    (from_dataframe parse name csv date_col location_col).1.getCol date_col =
      (csv.getCol date_col).map (parseCell parse) ∧
    (∀ inst : SensEURCityCSV,
      (from_dataframe parse name csv date_col location_col).2 = Except.ok inst →
      inst.csv.names = csv.names.filter (fun c => c != date_col)) := by
  unfold from_dataframe
  rw [if_pos hd, if_pos hl]
  dsimp only
  have hl1 : location_col ∈
      (csv.setCol location_col ((csv.getCol location_col).map normalizeCell)).names := by
    rw [Frame.names_setCol]
    exact hl
  have hd1 : date_col ∈
      (csv.setCol location_col ((csv.getCol location_col).map normalizeCell)).names := by
    rw [Frame.names_setCol]
    exact hd
  refine ⟨?_, ?_, ?_, ?_⟩
  · rw [Frame.names_setCol, Frame.names_setCol]
  · rw [Frame.getCol_setCol_ne _ _ _ _ (Ne.symm hne)]
    rw [Frame.getCol_setCol_self _ _ _ hl]
  · rw [Frame.getCol_setCol_self _ _ _ hd1]
    rw [Frame.getCol_setCol_ne _ _ _ _ hne]
  · intro inst hinst
    have h2 := (Except.ok.inj hinst).symm
    rw [h2]
    show (List.filter _ _).map Prod.fst = _
    rw [map_fst_filter_ne]
    have h3 : ((csv.setCol location_col ((csv.getCol location_col).map normalizeCell)).setCol
        date_col (((csv.setCol location_col ((csv.getCol location_col).map
          normalizeCell)).getCol date_col).map (parseCell parse))).cols.map Prod.fst =
        csv.names := by
      rw [show ∀ g : Frame, g.cols.map Prod.fst = g.names from fun g => rfl]
      rw [Frame.names_setCol, Frame.names_setCol]
    rw [h3]

/-- C10, witness: a concrete three-column frame is mutated in place as the
theorem states. -/
theorem C10_caller_frame_mutated_witness :
    ("date" ∈ c10Frame.names ∧ "Location.ID" ∈ c10Frame.names ∧
      "date" ≠ "Location.ID") ∧
    ((from_dataframe (fun _ => 7) "Antwerp_402B00" c10Frame "date" "Location.ID").1.names =
        c10Frame.names ∧
      (from_dataframe (fun _ => 7) "Antwerp_402B00" c10Frame "date" "Location.ID").1.getCol
          "Location.ID" = (c10Frame.getCol "Location.ID").map normalizeCell ∧
      (from_dataframe (fun _ => 7) "Antwerp_402B00" c10Frame "date" "Location.ID").1.getCol
          "date" = (c10Frame.getCol "date").map (parseCell (fun _ => 7)) ∧
      (∀ inst : SensEURCityCSV,
        (from_dataframe (fun _ => 7) "Antwerp_402B00" c10Frame "date" "Location.ID").2 =
          Except.ok inst →
        inst.csv.names = c10Frame.names.filter (fun c => c != "date"))) :=
  ⟨⟨by decide, by decide, by decide⟩,
    C10_caller_frame_mutated (fun _ => 7) "Antwerp_402B00" c10Frame "date" "Location.ID"
      (by decide) (by decide) (by decide)⟩

end SensEURCity

namespace SensEURCity

set_option maxRecDepth 100000
set_option maxHeartbeats 1000000

/-- C1: on the 1100-row fixture A×300, blank×98, B×200, A×100, blank×300, A,
blank, C×100 over hourly timestamps, `colocation` yields exactly the 5 expected
intervals in order, the fourth being the single-row interval with
`start_date = end_date = 998`, all carrying the device name as `device_key` and
the location as `other_key`. -/
theorem C1_colocation_fixture :
    colocation "Test" c1Rows =
      [{ device_key := "Test", other_key := "A", start_date := 0, end_date := 299 },
       { device_key := "Test", other_key := "B", start_date := 398, end_date := 597 },
       { device_key := "Test", other_key := "A", start_date := 598, end_date := 697 },
       { device_key := "Test", other_key := "A", start_date := 998, end_date := 998 },
       { device_key := "Test", other_key := "C", start_date := 1000, end_date := 1099 }] := by
  decide

/-- C6: a reference header matching the pollutant pattern is emitted as the
dot-to-underscore-normalized header plus an underscore and the city code
looked up from the first three characters of the location id; in particular
`Ref.NO` maps to `Ref_NO_OSL` under an `OSL` location and to `Ref_NO_ANT`
under a `VIT` location. -/
theorem C6_reference_header_city_suffix :
    (∀ loc header city, pollutantMatch header = true →
      city_match (loc.take 3) = some city →
      reference_header loc header = some ((replaceChar dotChar usChar header) ++ "_" ++ city)) ∧
    (∀ loc, loc.take 3 = "OSL" → reference_header loc "Ref.NO" = some "Ref_NO_OSL") ∧
    (∀ loc, loc.take 3 = "VIT" → reference_header loc "Ref.NO" = some "Ref_NO_ANT") := by
  refine ⟨?_, ?_, ?_⟩
  · intro loc header city hm hc
    unfold reference_header
    rw [if_pos hm, hc]
    rfl
  · intro loc hl
    unfold reference_header
    rw [if_pos (by decide), hl]
    rfl
  · intro loc hl
    unfold reference_header
    rw [if_pos (by decide), hl]
    rfl

/-- C6, witness: concrete location ids and a concrete pollutant header. -/
theorem C6_reference_header_city_suffix_witness :
    (pollutantMatch "Ref.PM10" = true ∧ city_match ("ZAG001".take 3) = some "ZAG" ∧
      reference_header "ZAG001" "Ref.PM10" =
        some ((replaceChar dotChar usChar "Ref.PM10") ++ "_" ++ "ZAG")) ∧
    ("OSL0023A".take 3 = "OSL" ∧ reference_header "OSL0023A" "Ref.NO" = some "Ref_NO_OSL") ∧
    ("VIT28A".take 3 = "VIT" ∧ reference_header "VIT28A" "Ref.NO" = some "Ref_NO_ANT") :=
  ⟨⟨by decide, by decide,
      C6_reference_header_city_suffix.1 "ZAG001" "Ref.PM10" "ZAG" (by decide) (by decide)⟩,
    ⟨by decide, C6_reference_header_city_suffix.2.1 "OSL0023A" (by decide)⟩,
    ⟨by decide, C6_reference_header_city_suffix.2.2 "VIT28A" (by decide)⟩⟩

/-- C7: the claim (with the spec and `test_get_ref_measurements`) says the
reference stream yields exactly one `{point_hash, timestamp, device_key}`
record per row with a non-null location.  The code instead yields
`{time, device_key, measurements, flags, meta}` records — no hash field exists
anywhere in data.py — and drops every row whose measurements dict is empty:
on a single row with location `ANT_R801` and a NaN reading in the only
reference column it emits no record at all. -/
theorem C7_row_with_location_dropped :
    reference_measurements ["Ref.NO2"] c7Rows = [] ∧ (located c7Rows).length = 1 := by
  constructor
  · rfl
  · rfl

end SensEURCity

namespace SensEURCity

theorem suppressDups_length : ∀ l : List RefRow, (suppressDups l).length = l.length
  | [] => rfl
  | [_] => rfl
  | _ :: r2 :: rest => by
    show (suppressDups (r2 :: rest)).length + 1 = _
    rw [suppressDups_length (r2 :: rest)]
    rfl

theorem suppressDups_getD_mid : ∀ (l : List RefRow) (i : Nat), i + 1 < l.length →
    (suppressDups l).getD i dRow =
      { l.getD i dRow with
        refs := (l.getD i dRow).refs.zipWith suppressPair ((l.getD (i + 1) dRow).refs) }
  | [], i, h => by simp at h
  | [_], i, h => by simp at h
  | r :: r2 :: rest, 0, h => by
    show ({ r with refs := r.refs.zipWith suppressPair r2.refs } : RefRow) = _
    rfl
  | r :: r2 :: rest, i + 1, h => by
    show (suppressDups (r2 :: rest)).getD i dRow = _
    have h2 : i + 1 < (r2 :: rest).length := by
      simp only [List.length_cons] at h ⊢
      omega
    rw [suppressDups_getD_mid (r2 :: rest) i h2]
    rfl

theorem suppressDups_getD_last : ∀ (l : List RefRow) (i : Nat), i + 1 = l.length →
    (suppressDups l).getD i dRow = l.getD i dRow
  | [], i, h => by simp at h
  | [r], 0, h => rfl
  | [r], i + 1, h => by simp at h
  | r :: r2 :: rest, 0, h => by simp at h
  | r :: r2 :: rest, i + 1, h => by
    show (suppressDups (r2 :: rest)).getD i dRow = (r2 :: rest).getD i dRow
    have h2 : i + 1 = (r2 :: rest).length := by
      simp only [List.length_cons] at h ⊢
      omega
    exact suppressDups_getD_last (r2 :: rest) i h2

theorem filterMapCount_zero :
    ∀ (ns : List String) (vs : List (Option Int)) (cname : String), cname ∉ ns →
    ((ns.zip vs).filterMap (fun p => p.2.map (fun v => (p.1, v)))).filter
      (fun p => p.1 == cname) = []
  | [], vs, cname, h => rfl
  | n :: ns, [], cname, h => rfl
  | n :: ns, v :: vs, cname, h => by
    have hn : ¬(n == cname) = true := by
      rw [beq_iff_eq]
      exact fun e => h (e ▸ List.mem_cons_self n ns)
    have hni : cname ∉ ns := fun e => h (List.mem_cons_of_mem n e)
    cases v with
    | none =>
      show ((ns.zip vs).filterMap (fun p => p.2.map (fun v => (p.1, v)))).filter
        (fun p => p.1 == cname) = []
      exact filterMapCount_zero ns vs cname hni
    | some a =>
      show (((n, a) :: (ns.zip vs).filterMap (fun p => p.2.map (fun v => (p.1, v)))).filter
        (fun p => p.1 == cname)) = []
      rw [List.filter_cons, if_neg hn]
      exact filterMapCount_zero ns vs cname hni

theorem filterMapCount :
    ∀ (ns : List String) (vs : List (Option Int)) (j : Nat), ns.Nodup →
    vs.length = ns.length → j < ns.length →
    (((ns.zip vs).filterMap (fun p => p.2.map (fun v => (p.1, v)))).filter
      (fun p => p.1 == ns.getD j "")).length =
      if (vs.getD j none).isSome then 1 else 0
  | [], vs, j, _, _, hj => by simp at hj
  | n :: ns, [], j, _, hlen, hj => by simp at hlen
  | n :: ns, v :: vs, 0, hnd, hlen, hj => by
    have hn : n ∉ ns := (List.nodup_cons.mp hnd).1
    cases v with
    | none =>
      show (((ns.zip vs).filterMap (fun p => p.2.map (fun v => (p.1, v)))).filter
        (fun p => p.1 == n)).length = if (none : Option Int).isSome then 1 else 0
      rw [filterMapCount_zero ns vs n hn]
      rfl
    | some a =>
      show (((n, a) :: (ns.zip vs).filterMap (fun p => p.2.map (fun v => (p.1, v)))).filter
        (fun p => p.1 == n)).length = 1
      rw [List.filter_cons, if_pos (by rw [beq_iff_eq])]
      rw [filterMapCount_zero ns vs n hn]
      rfl
  | n :: ns, v :: vs, j + 1, hnd, hlen, hj => by
    have hn : n ∉ ns := (List.nodup_cons.mp hnd).1
    have hnd2 : ns.Nodup := (List.nodup_cons.mp hnd).2
    have hlen2 : vs.length = ns.length := by
      simp only [List.length_cons] at hlen
      omega
    have hj2 : j < ns.length := by
      simp only [List.length_cons] at hj
      omega
    have htgt : (n :: ns).getD (j + 1) "" = ns.getD j "" := rfl
    have hmem : ns.getD j "" ∈ ns := by
      rw [List.getD_eq_getElem ns "" hj2]
      exact List.getElem_mem hj2
    have hhead : ¬(n == ns.getD j "") = true := by
      rw [beq_iff_eq]
      exact fun e => hn (e ▸ hmem)
    rw [htgt]
    cases v with
    | none =>
      show (((ns.zip vs).filterMap (fun p => p.2.map (fun v => (p.1, v)))).filter
        (fun p => p.1 == ns.getD j "")).length = if (vs.getD j none).isSome then 1 else 0
      exact filterMapCount ns vs j hnd2 hlen2 hj2
    | some a =>
      show (((n, a) :: (ns.zip vs).filterMap (fun p => p.2.map (fun v => (p.1, v)))).filter
        (fun p => p.1 == ns.getD j "")).length = _
      rw [List.filter_cons, if_neg hhead]
      exact filterMapCount ns vs j hnd2 hlen2 hj2

theorem colEmitCount_eq (refCols : List String) (r : RefRow) (j : Nat)
    (hnd : refCols.Nodup) (hlen : r.refs.length = refCols.length)
    (hj : j < refCols.length) :
    colEmitCount refCols r (refCols.getD j "") =
      if (r.refs.getD j none).isSome then 1 else 0 := by
  unfold colEmitCount rowMeasurements
  exact filterMapCount refCols r.refs j hnd hlen hj

end SensEURCity

namespace SensEURCity

theorem suppressPair_self : ∀ x : Option Int, suppressPair x x = none := by
  intro x
  cases x with
  | none => rfl
  | some a =>
    show (if a = a then none else some a) = none
    rw [if_pos rfl]

theorem located_getD_mem (rows : List RefRow) (i : Nat) (h : i < (located rows).length) :
    (located rows).getD i dRow ∈ rows := by
  rw [List.getD_eq_getElem _ _ h]
  exact (List.mem_filter.mp (List.getElem_mem h)).1

/-- C5: whenever a row's value in a reference column equals the immediately
following (location-surviving) row's value in that column, the earlier row's
value is nulled before records are emitted, so at most one value record is
emitted for that column across the pair. -/
theorem C5_consecutive_ref_duplicates (refCols : List String) (rows : List RefRow)
    (i j : Nat) (hnd : refCols.Nodup)
    (hal : ∀ r ∈ rows, r.refs.length = refCols.length)
    (hi : i + 1 < (located rows).length)
    (hj : j < refCols.length)
    (heq : ((located rows).getD i dRow).refs.getD j none =
      ((located rows).getD (i + 1) dRow).refs.getD j none) :
    ((suppressDups (located rows)).getD i dRow).refs.getD j none = none ∧
    colEmitCount refCols ((suppressDups (located rows)).getD i dRow) (refCols.getD j "") +
      colEmitCount refCols ((suppressDups (located rows)).getD (i + 1) dRow)
        (refCols.getD j "") ≤ 1 := by
  have hi0 : i < (located rows).length := Nat.lt_of_succ_lt hi
  have hleni : ((located rows).getD i dRow).refs.length = refCols.length :=
    hal _ (located_getD_mem rows i hi0)
  have hleni1 : ((located rows).getD (i + 1) dRow).refs.length = refCols.length :=
    hal _ (located_getD_mem rows (i + 1) hi)
  have hsup := suppressDups_getD_mid (located rows) i hi
  have hzlen : (((located rows).getD i dRow).refs.zipWith suppressPair
      (((located rows).getD (i + 1) dRow).refs)).length = refCols.length := by
    rw [List.length_zipWith, hleni, hleni1, Nat.min_self]
  have hjz : j < (((located rows).getD i dRow).refs.zipWith suppressPair
      (((located rows).getD (i + 1) dRow).refs)).length := by
    rw [hzlen]
    exact hj
  have hji : j < ((located rows).getD i dRow).refs.length := by
    rw [hleni]
    exact hj
  have hji1 : j < ((located rows).getD (i + 1) dRow).refs.length := by
    rw [hleni1]
    exact hj
  rw [List.getD_eq_getElem _ _ hji, List.getD_eq_getElem _ _ hji1] at heq
  have hval : ((suppressDups (located rows)).getD i dRow).refs.getD j none = none := by
    rw [hsup]
    show (((located rows).getD i dRow).refs.zipWith suppressPair
      (((located rows).getD (i + 1) dRow).refs)).getD j none = none
    rw [List.getD_eq_getElem _ _ hjz, List.getElem_zipWith]
    rw [heq]
    exact suppressPair_self _
  refine ⟨hval, ?_⟩
  have hlen_sup_i : ((suppressDups (located rows)).getD i dRow).refs.length =
      refCols.length := by
    rw [hsup]
    exact hzlen
  have hci : colEmitCount refCols ((suppressDups (located rows)).getD i dRow)
      (refCols.getD j "") = 0 := by
    rw [colEmitCount_eq refCols _ j hnd hlen_sup_i hj, hval]
    rfl
  have hlen_sup_i1 : ((suppressDups (located rows)).getD (i + 1) dRow).refs.length =
      refCols.length := by
    rcases Nat.lt_or_ge (i + 2) (located rows).length with h2 | h2
    · rw [suppressDups_getD_mid (located rows) (i + 1) h2]
      have hleni2 : ((located rows).getD (i + 2) dRow).refs.length = refCols.length :=
        hal _ (located_getD_mem rows (i + 2) h2)
      show (((located rows).getD (i + 1) dRow).refs.zipWith suppressPair
        (((located rows).getD (i + 2) dRow).refs)).length = refCols.length
      rw [List.length_zipWith, hleni1, hleni2, Nat.min_self]
    · have h3 : i + 2 = (located rows).length := Nat.le_antisymm hi h2
      rw [suppressDups_getD_last (located rows) (i + 1) h3]
      exact hleni1
  have hci1 : colEmitCount refCols ((suppressDups (located rows)).getD (i + 1) dRow)
      (refCols.getD j "") ≤ 1 := by
    rw [colEmitCount_eq refCols _ j hnd hlen_sup_i1 hj]
    cases (((suppressDups (located rows)).getD (i + 1) dRow).refs.getD j none).isSome
    · simp
    · simp
  omega

/-- C5, witness: two consecutive rows with the same `Ref.NO2` reading; the
earlier reading is nulled and at most one value record is emitted across the
pair. -/
theorem C5_consecutive_ref_duplicates_witness :
    (["Ref.NO2"].Nodup ∧ (∀ r ∈ c5Rows, r.refs.length = ["Ref.NO2"].length) ∧
      0 + 1 < (located c5Rows).length ∧ 0 < ["Ref.NO2"].length ∧
      ((located c5Rows).getD 0 dRow).refs.getD 0 none =
        ((located c5Rows).getD (0 + 1) dRow).refs.getD 0 none) ∧
    (((suppressDups (located c5Rows)).getD 0 dRow).refs.getD 0 none = none ∧
      colEmitCount ["Ref.NO2"] ((suppressDups (located c5Rows)).getD 0 dRow)
          (["Ref.NO2"].getD 0 "") +
        colEmitCount ["Ref.NO2"] ((suppressDups (located c5Rows)).getD (0 + 1) dRow)
          (["Ref.NO2"].getD 0 "") ≤ 1) :=
  ⟨⟨by decide, by decide, by decide, by decide, by decide⟩,
    C5_consecutive_ref_duplicates ["Ref.NO2"] c5Rows 0 0
      (by decide) (by decide) (by decide) (by decide) (by decide)⟩

end SensEURCity

namespace SensEURCity

theorem groupsAux_proj : ∀ (xs : List (Nat × String)) (prev : String) (g : Nat),
    (groupsAux prev g xs).map (fun r => (r.t, r.loc)) = xs
  | [], _, _ => rfl
  | (t, l) :: rest, prev, g => by
    unfold groupsAux
    by_cases h : l = prev
    · rw [if_pos h, List.map_cons, groupsAux_proj rest l g]
    · rw [if_neg h, List.map_cons, groupsAux_proj rest l (g + 1)]

theorem assignGroups_proj : ∀ xs : List (Nat × String),
    (assignGroups xs).map (fun r => (r.t, r.loc)) = xs
  | [] => rfl
  | (t, l) :: rest => by
    unfold assignGroups
    rw [List.map_cons, groupsAux_proj rest l 0]

theorem assignGroups_length (xs : List (Nat × String)) :
    (assignGroups xs).length = xs.length := by
  have h := congrArg List.length (assignGroups_proj xs)
  rwa [List.length_map] at h

theorem mem_proj_of_mem_groupsAux {xs : List (Nat × String)} {prev : String} {g : Nat}
    {r : CRow} (h : r ∈ groupsAux prev g xs) : (r.t, r.loc) ∈ xs := by
  rw [← groupsAux_proj xs prev g]
  exact List.mem_map_of_mem _ h

theorem groupsAux_spec : ∀ (xs : List (Nat × String)) (prev : String) (g : Nat),
    List.Pairwise (fun a b : Nat × String => a.1 < b.1) xs →
    List.Pairwise RowR (groupsAux prev g xs) ∧
    ∀ r ∈ groupsAux prev g xs, g ≤ r.gid ∧ (r.gid = g → r.loc = prev)
  | [], _, _, _ => ⟨List.Pairwise.nil, fun r hr => absurd hr (List.not_mem_nil r)⟩
  | (t, l) :: rest, prev, g, hpw => by
    obtain ⟨h1, h2⟩ := List.pairwise_cons.mp hpw
    by_cases hb : l = prev
    · obtain ⟨ih1, ih2⟩ := groupsAux_spec rest l g h2
      have hout : groupsAux prev g ((t, l) :: rest) = ⟨t, l, g⟩ :: groupsAux l g rest := by
        show (if l = prev then (⟨t, l, g⟩ : CRow) :: groupsAux l g rest
          else ⟨t, l, g + 1⟩ :: groupsAux l (g + 1) rest) = _
        rw [if_pos hb]
      rw [hout]
      constructor
      · rw [List.pairwise_cons]
        refine ⟨?_, ih1⟩
        intro r hr
        refine ⟨(ih2 r hr).1, ?_, ?_⟩
        · exact h1 (r.t, r.loc) (mem_proj_of_mem_groupsAux hr)
        · intro hg
          rw [(ih2 r hr).2 hg.symm]
      · intro r hr
        rcases List.mem_cons.mp hr with h | h
        · rw [h]
          exact ⟨Nat.le_refl g, fun _ => hb⟩
        · refine ⟨(ih2 r h).1, fun hg => ?_⟩
          rw [(ih2 r h).2 hg]
          exact hb
    · obtain ⟨ih1, ih2⟩ := groupsAux_spec rest l (g + 1) h2
      have hout : groupsAux prev g ((t, l) :: rest) =
          ⟨t, l, g + 1⟩ :: groupsAux l (g + 1) rest := by
        show (if l = prev then (⟨t, l, g⟩ : CRow) :: groupsAux l g rest
          else ⟨t, l, g + 1⟩ :: groupsAux l (g + 1) rest) = _
        rw [if_neg hb]
      rw [hout]
      constructor
      · rw [List.pairwise_cons]
        refine ⟨?_, ih1⟩
        intro r hr
        refine ⟨(ih2 r hr).1, ?_, ?_⟩
        · exact h1 (r.t, r.loc) (mem_proj_of_mem_groupsAux hr)
        · intro hg
          rw [(ih2 r hr).2 hg.symm]
      · intro r hr
        rcases List.mem_cons.mp hr with h | h
        · rw [h]
          refine ⟨Nat.le_succ g, fun hg => ?_⟩
          have hg2 : g + 1 = g := hg
          omega
        · refine ⟨Nat.le_trans (Nat.le_succ g) (ih2 r h).1, fun hg => ?_⟩
          have := (ih2 r h).1
          omega

theorem assignGroups_pairwise : ∀ xs : List (Nat × String),
    List.Pairwise (fun a b : Nat × String => a.1 < b.1) xs →
    List.Pairwise RowR (assignGroups xs)
  | [], _ => List.Pairwise.nil
  | (t, l) :: rest, hpw => by
    obtain ⟨h1, h2⟩ := List.pairwise_cons.mp hpw
    obtain ⟨ih1, ih2⟩ := groupsAux_spec rest l 0 h2
    show List.Pairwise RowR (⟨t, l, 0⟩ :: groupsAux l 0 rest)
    rw [List.pairwise_cons]
    refine ⟨?_, ih1⟩
    intro r hr
    refine ⟨Nat.zero_le _, ?_, ?_⟩
    · exact h1 (r.t, r.loc) (mem_proj_of_mem_groupsAux hr)
    · intro hg
      rw [(ih2 r hr).2 hg.symm]

end SensEURCity

namespace SensEURCity

theorem nonBlank_pairwise (rows : List (Nat × Option String))
    (hmono : List.Pairwise (fun a b => a.1 < b.1) rows) :
    List.Pairwise RowR (nonBlank (assignGroups (fillLoc rows))) := by
  have hfill : List.Pairwise (fun a b : Nat × String => a.1 < b.1) (fillLoc rows) := by
    unfold fillLoc
    rw [List.pairwise_map]
    exact hmono
  exact (assignGroups_pairwise (fillLoc rows) hfill).filter _

theorem pairwise_gid_lt_t {rs : List CRow} (hpw : List.Pairwise RowR rs) :
    ∀ a ∈ rs, ∀ b ∈ rs, a.gid < b.gid → a.t < b.t := by
  intro a ha b hb hgid
  have hsym : Symmetric (fun a b : CRow => RowR a b ∨ RowR b a) :=
    fun x y h => h.elim Or.inr Or.inl
  have hS : List.Pairwise (fun a b : CRow => RowR a b ∨ RowR b a) rs :=
    hpw.imp (fun h => Or.inl h)
  have hne : a ≠ b := by
    intro e
    rw [e] at hgid
    exact Nat.lt_irrefl _ hgid
  rcases hS.forall hsym ha hb hne with h | h
  · exact h.2.1
  · exact absurd hgid (Nat.not_lt.mpr h.1)

theorem pairwise_gid_eq_loc {rs : List CRow} (hpw : List.Pairwise RowR rs) :
    ∀ a ∈ rs, ∀ b ∈ rs, a.gid = b.gid → a.loc = b.loc := by
  intro a ha b hb hgid
  have hsym : Symmetric (fun a b : CRow => RowR a b ∨ RowR b a) :=
    fun x y h => h.elim Or.inr Or.inl
  have hS : List.Pairwise (fun a b : CRow => RowR a b ∨ RowR b a) rs :=
    hpw.imp (fun h => Or.inl h)
  by_cases hne : a = b
  · rw [hne]
  rcases hS.forall hsym ha hb hne with h | h
  · exact h.2.2 hgid
  · exact (h.2.2 hgid.symm).symm

theorem mem_gatherKeys : ∀ (l : List CRow) (acc : List (String × Nat)) (k : String × Nat),
    k ∈ gatherKeys l acc ↔ k ∈ acc ∨ ∃ r ∈ l, (r.loc, r.gid) = k
  | [], acc, k => by
    show k ∈ acc ↔ _
    constructor
    · exact fun h => Or.inl h
    · rintro (h | ⟨r, hr, -⟩)
      · exact h
      · exact absurd hr (List.not_mem_nil r)
  | r :: l, acc, k => by
    by_cases hmem : (r.loc, r.gid) ∈ acc
    · have hout : gatherKeys (r :: l) acc = gatherKeys l acc := by
        show (if (r.loc, r.gid) ∈ acc then gatherKeys l acc
          else gatherKeys l (acc ++ [(r.loc, r.gid)])) = _
        rw [if_pos hmem]
      rw [hout, mem_gatherKeys l acc k]
      constructor
      · rintro (h | ⟨q, hq, he⟩)
        · exact Or.inl h
        · exact Or.inr ⟨q, List.mem_cons_of_mem r hq, he⟩
      · rintro (h | ⟨q, hq, he⟩)
        · exact Or.inl h
        · rcases List.mem_cons.mp hq with h2 | h2
          · rw [h2] at he
            rw [← he]
            exact Or.inl hmem
          · exact Or.inr ⟨q, h2, he⟩
    · have hout : gatherKeys (r :: l) acc = gatherKeys l (acc ++ [(r.loc, r.gid)]) := by
        show (if (r.loc, r.gid) ∈ acc then gatherKeys l acc
          else gatherKeys l (acc ++ [(r.loc, r.gid)])) = _
        rw [if_neg hmem]
      rw [hout, mem_gatherKeys l _ k]
      constructor
      · rintro (h | ⟨q, hq, he⟩)
        · rcases List.mem_append.mp h with h2 | h2
          · exact Or.inl h2
          · rw [List.mem_singleton.mp h2]
            exact Or.inr ⟨r, List.mem_cons_self r l, rfl⟩
        · exact Or.inr ⟨q, List.mem_cons_of_mem r hq, he⟩
      · rintro (h | ⟨q, hq, he⟩)
        · exact Or.inl (List.mem_append.mpr (Or.inl h))
        · rcases List.mem_cons.mp hq with h2 | h2
          · rw [h2] at he
            exact Or.inl (List.mem_append.mpr (Or.inr (List.mem_singleton.mpr he.symm)))
          · exact Or.inr ⟨q, h2, he⟩

theorem nodup_gatherKeys : ∀ (l : List CRow) (acc : List (String × Nat)),
    acc.Nodup → (gatherKeys l acc).Nodup
  | [], acc, h => h
  | r :: l, acc, h => by
    by_cases hmem : (r.loc, r.gid) ∈ acc
    · have hout : gatherKeys (r :: l) acc = gatherKeys l acc := by
        show (if (r.loc, r.gid) ∈ acc then gatherKeys l acc
          else gatherKeys l (acc ++ [(r.loc, r.gid)])) = _
        rw [if_pos hmem]
      rw [hout]
      exact nodup_gatherKeys l acc h
    · have hout : gatherKeys (r :: l) acc = gatherKeys l (acc ++ [(r.loc, r.gid)]) := by
        show (if (r.loc, r.gid) ∈ acc then gatherKeys l acc
          else gatherKeys l (acc ++ [(r.loc, r.gid)])) = _
        rw [if_neg hmem]
      rw [hout]
      refine nodup_gatherKeys l _ (List.nodup_append.mpr ⟨h, List.nodup_singleton _, ?_⟩)
      intro a ha hb
      rw [List.mem_singleton.mp hb] at ha
      exact hmem ha

theorem mem_coKeys {rs : List CRow} {k : String × Nat} :
    k ∈ coKeys rs ↔ ∃ r ∈ rs, (r.loc, r.gid) = k := by
  unfold coKeys
  rw [(List.perm_insertionSort keyLe (gatherKeys rs [])).mem_iff]
  rw [mem_gatherKeys rs [] k]
  constructor
  · rintro (h | h)
    · exact absurd h (List.not_mem_nil k)
    · exact h
  · exact fun h => Or.inr h

theorem nodup_coKeys (rs : List CRow) : (coKeys rs).Nodup := by
  unfold coKeys
  exact ((List.perm_insertionSort keyLe (gatherKeys rs [])).nodup_iff).mpr
    (nodup_gatherKeys rs [] List.nodup_nil)

theorem mem_tsOfKey {rs : List CRow} {k : String × Nat} {t : Nat} :
    t ∈ tsOfKey rs k ↔ ∃ r ∈ rs, r.loc = k.1 ∧ r.gid = k.2 ∧ r.t = t := by
  unfold tsOfKey
  rw [List.mem_filterMap]
  constructor
  · rintro ⟨r, hr, he⟩
    by_cases hc : r.loc = k.1 ∧ r.gid = k.2
    · rw [if_pos hc] at he
      exact ⟨r, hr, hc.1, hc.2, Option.some.inj he⟩
    · rw [if_neg hc] at he
      exact absurd he (Option.noConfusion)
  · rintro ⟨r, hr, h1, h2, h3⟩
    exact ⟨r, hr, by rw [if_pos ⟨h1, h2⟩, h3]⟩

theorem foldl_min_choice : ∀ (xs : List Nat) (a : Nat),
    xs.foldl min a = a ∨ xs.foldl min a ∈ xs
  | [], a => Or.inl rfl
  | x :: xs, a => by
    have he : List.foldl min a (x :: xs) = List.foldl min (min a x) xs := rfl
    rw [he]
    rcases foldl_min_choice xs (min a x) with h | h
    · rcases Nat.le_total a x with hle | hle
      · rw [h, Nat.min_eq_left hle]
        exact Or.inl rfl
      · rw [h, Nat.min_eq_right hle]
        exact Or.inr (List.mem_cons_self x xs)
    · exact Or.inr (List.mem_cons_of_mem x h)

theorem foldl_min_le_init : ∀ (xs : List Nat) (a : Nat), xs.foldl min a ≤ a
  | [], a => Nat.le_refl a
  | x :: xs, a =>
    Nat.le_trans (foldl_min_le_init xs (min a x)) (Nat.min_le_left a x)

theorem foldl_min_le_mem : ∀ (xs : List Nat) (a x : Nat), x ∈ xs → xs.foldl min a ≤ x
  | [], a, x, h => absurd h (List.not_mem_nil x)
  | y :: xs, a, x, h => by
    rcases List.mem_cons.mp h with h2 | h2
    · rw [h2]
      show List.foldl min (min a y) xs ≤ y
      exact Nat.le_trans (foldl_min_le_init xs (min a y)) (Nat.min_le_right a y)
    · exact foldl_min_le_mem xs (min a y) x h2

theorem minD_mem : ∀ l : List Nat, l ≠ [] → minD l ∈ l
  | [], h => absurd rfl h
  | x :: xs, _ => by
    rcases foldl_min_choice xs x with h | h
    · show xs.foldl min x ∈ x :: xs
      rw [h]
      exact List.mem_cons_self x xs
    · exact List.mem_cons_of_mem x h

theorem minD_le : ∀ (l : List Nat) (x : Nat), x ∈ l → minD l ≤ x := by
  intro l x h
  cases l with
  | nil => exact absurd h (List.not_mem_nil x)
  | cons y ys =>
    rcases List.mem_cons.mp h with h2 | h2
    · rw [h2]
      show ys.foldl min y ≤ y
      exact foldl_min_le_init ys y
    · exact foldl_min_le_mem ys y x h2

theorem foldl_max_choice : ∀ (xs : List Nat) (a : Nat),
    xs.foldl max a = a ∨ xs.foldl max a ∈ xs
  | [], a => Or.inl rfl
  | x :: xs, a => by
    have he : List.foldl max a (x :: xs) = List.foldl max (max a x) xs := rfl
    rw [he]
    rcases foldl_max_choice xs (max a x) with h | h
    · rcases Nat.le_total a x with hle | hle
      · rw [h, Nat.max_eq_right hle]
        exact Or.inr (List.mem_cons_self x xs)
      · rw [h, Nat.max_eq_left hle]
        exact Or.inl rfl
    · exact Or.inr (List.mem_cons_of_mem x h)

theorem foldl_max_init_le : ∀ (xs : List Nat) (a : Nat), a ≤ xs.foldl max a
  | [], a => Nat.le_refl a
  | x :: xs, a =>
    Nat.le_trans (Nat.le_max_left a x) (foldl_max_init_le xs (max a x))

theorem foldl_max_mem_le : ∀ (xs : List Nat) (a x : Nat), x ∈ xs → x ≤ xs.foldl max a
  | [], a, x, h => absurd h (List.not_mem_nil x)
  | y :: xs, a, x, h => by
    rcases List.mem_cons.mp h with h2 | h2
    · rw [h2]
      show y ≤ List.foldl max (max a y) xs
      exact Nat.le_trans (Nat.le_max_right a y) (foldl_max_init_le xs (max a y))
    · exact foldl_max_mem_le xs (max a y) x h2

theorem maxD_mem : ∀ l : List Nat, l ≠ [] → maxD l ∈ l
  | [], h => absurd rfl h
  | x :: xs, _ => by
    rcases foldl_max_choice xs x with h | h
    · show xs.foldl max x ∈ x :: xs
      rw [h]
      exact List.mem_cons_self x xs
    · exact List.mem_cons_of_mem x h

theorem le_maxD : ∀ (l : List Nat) (x : Nat), x ∈ l → x ≤ maxD l := by
  intro l x h
  cases l with
  | nil => exact absurd h (List.not_mem_nil x)
  | cons y ys =>
    rcases List.mem_cons.mp h with h2 | h2
    · rw [h2]
      show y ≤ ys.foldl max y
      exact foldl_max_init_le ys y
    · exact foldl_max_mem_le ys y x h2

end SensEURCity

namespace SensEURCity

theorem tsOfKey_ne_nil {rs : List CRow} {k : String × Nat} (h : k ∈ coKeys rs) :
    tsOfKey rs k ≠ [] := by
  obtain ⟨r, hr, he⟩ := mem_coKeys.mp h
  exact List.ne_nil_of_mem (mem_tsOfKey.mpr
    ⟨r, hr, congrArg Prod.fst he, congrArg Prod.snd he, rfl⟩)

theorem keys_sep {rs : List CRow} (hpw : List.Pairwise RowR rs) {k1 k2 : String × Nat}
    (h1 : k1 ∈ coKeys rs) (h2 : k2 ∈ coKeys rs) (hlt : k1.2 < k2.2) :
    maxD (tsOfKey rs k1) < minD (tsOfKey rs k2) := by
  obtain ⟨ra, hra, hla, hga, hta⟩ := mem_tsOfKey.mp (maxD_mem _ (tsOfKey_ne_nil h1))
  obtain ⟨rb, hrb, hlb, hgb, htb⟩ := mem_tsOfKey.mp (minD_mem _ (tsOfKey_ne_nil h2))
  rw [← hta, ← htb]
  exact pairwise_gid_lt_t hpw ra hra rb hrb (by rw [hga, hgb]; exact hlt)

theorem recs_nonoverlap {rs : List CRow} (hpw : List.Pairwise RowR rs) (name : String)
    {k1 k2 : String × Nat} (h1 : k1 ∈ coKeys rs) (h2 : k2 ∈ coKeys rs)
    (hne : k1 ≠ k2) : NonOverlap (mkRec name rs k1) (mkRec name rs k2) := by
  have hgid : k1.2 ≠ k2.2 := by
    intro he
    apply hne
    obtain ⟨ra, hra, hea⟩ := mem_coKeys.mp h1
    obtain ⟨rb, hrb, heb⟩ := mem_coKeys.mp h2
    have hga : ra.gid = k1.2 := congrArg Prod.snd hea
    have hgb : rb.gid = k2.2 := congrArg Prod.snd heb
    have hloc := pairwise_gid_eq_loc hpw ra hra rb hrb (by rw [hga, hgb, he])
    calc k1 = (ra.loc, ra.gid) := hea.symm
      _ = (rb.loc, rb.gid) := by rw [hloc, hga, hgb, he]
      _ = k2 := heb
  rcases Nat.lt_or_ge k1.2 k2.2 with hlt | hge
  · exact Or.inl (keys_sep hpw h1 h2 hlt)
  · exact Or.inr (keys_sep hpw h2 h1 (Nat.lt_of_le_of_ne hge (fun e => hgid e.symm)))

theorem getD_map {α β : Type _} (f : α → β) :
    ∀ (l : List α) (i : Nat) (d : α), (l.map f).getD i (f d) = f (l.getD i d)
  | [], 0, d => rfl
  | [], i + 1, d => rfl
  | x :: xs, 0, d => rfl
  | x :: xs, i + 1, d => getD_map f xs i d

theorem assignGroups_getD_proj (rows : List (Nat × Option String)) (i : Nat) :
    ((assignGroups (fillLoc rows)).getD i dCRow).t = (rows.getD i cRowD).1 ∧
    ((assignGroups (fillLoc rows)).getD i dCRow).loc = (rows.getD i cRowD).2.getD "" := by
  have h1 := getD_map (fun r : CRow => (r.t, r.loc)) (assignGroups (fillLoc rows)) i dCRow
  rw [assignGroups_proj (fillLoc rows)] at h1
  have h2 : (fillLoc rows).getD i (dCRow.t, dCRow.loc) =
      ((rows.getD i cRowD).1, (rows.getD i cRowD).2.getD "") :=
    getD_map (fun r : Nat × Option String => (r.1, r.2.getD "")) rows i cRowD
  have hcomb := h1.symm.trans h2
  exact ⟨congrArg Prod.fst hcomb, congrArg Prod.snd hcomb⟩

end SensEURCity

namespace SensEURCity

/-- C4: for strictly increasing timestamps, the colocation records are sorted
ascending by `start_date`, pairwise non-overlapping, and two same-location runs
separated by a blank/null-location row are emitted as two distinct intervals
(the earlier one closing strictly before the later one opens), never merged. -/
theorem C4_colocation_invariants (name : String) (rows : List (Nat × Option String))
    (hmono : List.Pairwise (fun a b => a.1 < b.1) rows) :
    List.Sorted recLe (colocation name rows) ∧
    List.Pairwise NonOverlap (colocation name rows) ∧
    (∀ i j k L, i < j → j < k → k < rows.length → L ≠ "" →
      (rows.getD i cRowD).2.getD "" = L →
      (rows.getD j cRowD).2.getD "" = "" →
      (rows.getD k cRowD).2.getD "" = L →
      ∃ r1 ∈ colocation name rows, ∃ r2 ∈ colocation name rows,
        r1.other_key = L ∧ r2.other_key = L ∧
        r1.start_date ≤ (rows.getD i cRowD).1 ∧ (rows.getD i cRowD).1 ≤ r1.end_date ∧
        r2.start_date ≤ (rows.getD k cRowD).1 ∧ (rows.getD k cRowD).1 ≤ r2.end_date ∧
        r1.end_date < r2.start_date) := by
  have hpw : List.Pairwise RowR (nonBlank (assignGroups (fillLoc rows))) :=
    nonBlank_pairwise rows hmono
  refine ⟨?_, ?_, ?_⟩
  · exact List.sorted_insertionSort recLe _
  · have hsymm : ∀ {x y : ColocationRecord}, NonOverlap x y → NonOverlap y x :=
      fun h => h.elim Or.inr Or.inl
    have hmap : List.Pairwise NonOverlap
        ((coKeys (nonBlank (assignGroups (fillLoc rows)))).map
          (mkRec name (nonBlank (assignGroups (fillLoc rows))))) := by
      rw [List.pairwise_map]
      exact (nodup_coKeys _).imp_of_mem
        (fun ha hb hne => recs_nonoverlap hpw name ha hb hne)
    exact ((List.perm_insertionSort recLe _).pairwise_iff hsymm).mpr hmap
  · intro i j k L hij hjk hk hL hLi hLj hLk
    have hj' : j < rows.length := Nat.lt_trans hjk hk
    have hi' : i < rows.length := Nat.lt_trans hij hj'
    have hlenAG : (assignGroups (fillLoc rows)).length = rows.length := by
      rw [assignGroups_length]
      exact List.length_map rows _
    have hiA : i < (assignGroups (fillLoc rows)).length := by omega
    have hjA : j < (assignGroups (fillLoc rows)).length := by omega
    have hkA : k < (assignGroups (fillLoc rows)).length := by omega
    have hAG : List.Pairwise RowR (assignGroups (fillLoc rows)) := by
      apply assignGroups_pairwise
      unfold fillLoc
      rw [List.pairwise_map]
      exact hmono
    rw [List.pairwise_iff_getElem] at hAG
    have hRij : RowR ((assignGroups (fillLoc rows)).getD i dCRow)
        ((assignGroups (fillLoc rows)).getD j dCRow) := by
      rw [List.getD_eq_getElem _ _ hiA, List.getD_eq_getElem _ _ hjA]
      exact hAG i j hiA hjA hij
    have hRjk : RowR ((assignGroups (fillLoc rows)).getD j dCRow)
        ((assignGroups (fillLoc rows)).getD k dCRow) := by
      rw [List.getD_eq_getElem _ _ hjA, List.getD_eq_getElem _ _ hkA]
      exact hAG j k hjA hkA hjk
    have hprojI := assignGroups_getD_proj rows i
    have hprojJ := assignGroups_getD_proj rows j
    have hprojK := assignGroups_getD_proj rows k
    have hlocI : ((assignGroups (fillLoc rows)).getD i dCRow).loc = L := by
      rw [hprojI.2]
      exact hLi
    have hlocJ : ((assignGroups (fillLoc rows)).getD j dCRow).loc = "" := by
      rw [hprojJ.2]
      exact hLj
    have hlocK : ((assignGroups (fillLoc rows)).getD k dCRow).loc = L := by
      rw [hprojK.2]
      exact hLk
    have hgij : ((assignGroups (fillLoc rows)).getD i dCRow).gid <
        ((assignGroups (fillLoc rows)).getD j dCRow).gid := by
      rcases Nat.lt_or_ge ((assignGroups (fillLoc rows)).getD i dCRow).gid
        ((assignGroups (fillLoc rows)).getD j dCRow).gid with h | h
      · exact h
      · have he := Nat.le_antisymm hRij.1 h
        have := hRij.2.2 he
        rw [hlocI, hlocJ] at this
        exact absurd this hL
    have hgjk : ((assignGroups (fillLoc rows)).getD j dCRow).gid <
        ((assignGroups (fillLoc rows)).getD k dCRow).gid := by
      rcases Nat.lt_or_ge ((assignGroups (fillLoc rows)).getD j dCRow).gid
        ((assignGroups (fillLoc rows)).getD k dCRow).gid with h | h
      · exact h
      · have he := Nat.le_antisymm hRjk.1 h
        have := hRjk.2.2 he
        rw [hlocJ, hlocK] at this
        exact absurd this.symm hL
    have hgik := Nat.lt_trans hgij hgjk
    have hmemI : (assignGroups (fillLoc rows)).getD i dCRow ∈
        nonBlank (assignGroups (fillLoc rows)) := by
      apply List.mem_filter.mpr
      constructor
      · rw [List.getD_eq_getElem _ _ hiA]
        exact List.getElem_mem hiA
      · rw [bne_iff_ne, hlocI]
        exact hL
    have hmemK : (assignGroups (fillLoc rows)).getD k dCRow ∈
        nonBlank (assignGroups (fillLoc rows)) := by
      apply List.mem_filter.mpr
      constructor
      · rw [List.getD_eq_getElem _ _ hkA]
        exact List.getElem_mem hkA
      · rw [bne_iff_ne, hlocK]
        exact hL
    have hk1 : (L, ((assignGroups (fillLoc rows)).getD i dCRow).gid) ∈
        coKeys (nonBlank (assignGroups (fillLoc rows))) :=
      mem_coKeys.mpr ⟨_, hmemI, by rw [hlocI]⟩
    have hk2 : (L, ((assignGroups (fillLoc rows)).getD k dCRow).gid) ∈
        coKeys (nonBlank (assignGroups (fillLoc rows))) :=
      mem_coKeys.mpr ⟨_, hmemK, by rw [hlocK]⟩
    refine ⟨mkRec name (nonBlank (assignGroups (fillLoc rows)))
        (L, ((assignGroups (fillLoc rows)).getD i dCRow).gid), ?_,
      mkRec name (nonBlank (assignGroups (fillLoc rows)))
        (L, ((assignGroups (fillLoc rows)).getD k dCRow).gid), ?_,
      rfl, rfl, ?_, ?_, ?_, ?_, ?_⟩
    · exact (List.mem_insertionSort recLe).mpr (List.mem_map_of_mem _ hk1)
    · exact (List.mem_insertionSort recLe).mpr (List.mem_map_of_mem _ hk2)
    · rw [← hprojI.1]
      exact minD_le _ _ (mem_tsOfKey.mpr ⟨_, hmemI, hlocI, rfl, rfl⟩)
    · rw [← hprojI.1]
      exact le_maxD _ _ (mem_tsOfKey.mpr ⟨_, hmemI, hlocI, rfl, rfl⟩)
    · rw [← hprojK.1]
      exact minD_le _ _ (mem_tsOfKey.mpr ⟨_, hmemK, hlocK, rfl, rfl⟩)
    · rw [← hprojK.1]
      exact le_maxD _ _ (mem_tsOfKey.mpr ⟨_, hmemK, hlocK, rfl, rfl⟩)
    · exact keys_sep hpw hk1 hk2 hgik

end SensEURCity

namespace SensEURCity

/-- C4, witness: the three-row table A, blank, A has strictly increasing
timestamps, and the invariants hold for it. -/
theorem C4_colocation_invariants_witness :
    List.Pairwise (fun a b : Nat × Option String => a.1 < b.1) c4Rows ∧
    (List.Sorted recLe (colocation "Test2" c4Rows) ∧
      List.Pairwise NonOverlap (colocation "Test2" c4Rows) ∧
      (∀ i j k L, i < j → j < k → k < c4Rows.length → L ≠ "" →
        (c4Rows.getD i cRowD).2.getD "" = L →
        (c4Rows.getD j cRowD).2.getD "" = "" →
        (c4Rows.getD k cRowD).2.getD "" = L →
        ∃ r1 ∈ colocation "Test2" c4Rows, ∃ r2 ∈ colocation "Test2" c4Rows,
          r1.other_key = L ∧ r2.other_key = L ∧
          r1.start_date ≤ (c4Rows.getD i cRowD).1 ∧
          (c4Rows.getD i cRowD).1 ≤ r1.end_date ∧
          r2.start_date ≤ (c4Rows.getD k cRowD).1 ∧
          (c4Rows.getD k cRowD).1 ≤ r2.end_date ∧
          r1.end_date < r2.start_date)) :=
  ⟨by decide, C4_colocation_invariants "Test2" c4Rows (by decide)⟩

end SensEURCity
